import Mathlib

/-
Verification of the akidb embedding service core against its specification.

The definitions below are a shallow embedding of the Python sources:
  crates/akidb-embedding/python/akidb_mlx/mlx_inference.py
  crates/akidb-embedding/python/akidb_mlx/model_loader.py
  crates/akidb-embedding/python/akidb_mlx/embedding_service.py
  crates/akidb-embedding/python/onnx_server.py

Machine floats are modelled by exact rationals; the square root used by
L2 normalization (np.linalg.norm / mx.sqrt) is an external numeric
primitive and is passed in as a parameter, constrained by its defining
property (nonnegative, squares to the sum of squares) where a theorem
needs it.  External library calls (HuggingFace tokenizers, model forward
passes, snapshot_download, SentenceTransformer) are modelled as oracle
parameters, while all control flow, state updates and tensor arithmetic
written in the repository itself are embedded concretely.
-/

/-! ### Vector arithmetic (numpy / mlx element-wise operations on ℚ) -/

/-- Element-wise vector addition, as performed by np.sum / mx.sum over the
sequence axis on arrays of equal shape. -/
def vecAdd (a b : List ℚ) : List ℚ := List.zipWith (fun x y => x + y) a b

/-- Scalar multiplication of a vector, used for hidden_states * mask row. -/
def vecScale (c : ℚ) (v : List ℚ) : List ℚ := v.map (fun x => c * x)

/-- Sum of squares of a vector; the square of its Euclidean norm. -/
def sumSq (v : List ℚ) : ℚ := v.foldr (fun x s => x * x + s) 0

/-- The 1e-9 clamp floor used by mean pooling (mlx_inference.py line 196,
onnx_server.py line 215). -/
def eps9 : ℚ := 1 / 1000000000

/-- The 1e-12 clamp floor used by L2 normalization (mlx_inference.py line 233,
onnx_server.py line 221). -/
def eps12 : ℚ := 1 / 1000000000000

/-! ### Mean pooling (MLXEmbeddingModel._mean_pooling; identical formula
inline in ONNXEmbeddingServer.embed_batch lines 210-216) -/

/-- np.sum(hidden_states * attention_mask_expanded, axis=1) for one row of
the batch: the mask-weighted sum of the per-position hidden vectors.
`dim` is the hidden size carried by the array shape in numpy/mlx. -/
def maskedVecSum (dim : ℕ) : List (List ℚ) → List ℕ → List ℚ
  | h :: hs, m :: ms => vecAdd (vecScale (m : ℚ) h) (maskedVecSum dim hs ms)
  | _, _ => List.replicate dim 0

/-- Hidden size of a row of hidden states, read off the array shape. -/
def rowDim (hs : List (List ℚ)) : ℕ := (hs.headD []).length

/-- Mean pooling for one row: masked sum divided by the mask count clamped
to a minimum of eps9 (mx.maximum(sum_mask, 1e-9) / np.clip(..., a_min=1e-9)). -/
def meanPoolingRow (hs : List (List ℚ)) (mask : List ℕ) : List ℚ :=
  (maskedVecSum (rowDim hs) hs mask).map (fun x => x / max ((mask.sum : ℚ)) eps9)

/-- CLS pooling for one row: hidden_states[:, 0, :]
(MLXEmbeddingModel._cls_pooling). -/
def clsPoolingRow (hs : List (List ℚ)) : List ℚ := hs.headD []

/-! Spec-side rendering of mean pooling, written from the specification's
words: sum the hidden vectors at positions where mask == 1 and divide by
the count of such positions, clamped to a minimum of 1e-9.  It is compared
with the source-derived `meanPoolingRow` in claim C1. -/

/-- Hidden vectors at the positions where the mask is 1 (spec wording). -/
def selectedVecs (hs : List (List ℚ)) (mask : List ℕ) : List (List ℚ) :=
  ((hs.zip mask).filter (fun p => p.2 == 1)).map (fun p => p.1)

/-- Number of positions where the mask is 1 (spec wording). -/
def countOnes (mask : List ℕ) : ℕ := mask.count 1

/-- Mean pooling as the specification words it. -/
def specMeanRow (dim : ℕ) (hs : List (List ℚ)) (mask : List ℕ) : List ℚ :=
  ((selectedVecs hs mask).foldr vecAdd (List.replicate dim 0)).map
    (fun x => x / max ((countOnes mask : ℚ)) eps9)

/-! ### L2 normalization (MLXEmbeddingModel._l2_normalize; identical inline
in ONNXEmbeddingServer.embed_batch lines 218-222) -/

/-- Normalization of one vector given the value `n` produced by the external
square-root primitive for sumSq v: divide every component by max n eps12. -/
def l2normalizeWith (n : ℚ) (v : List ℚ) : List ℚ :=
  v.map (fun x => x / max n eps12)

/-- The `if normalize:` guard around normalization in embed / embed_batch. -/
def applyNorm (normalizeFlag : Bool) (n : ℚ) (v : List ℚ) : List ℚ :=
  if normalizeFlag then l2normalizeWith n v else v

/-! ### Tokenizer Adapter (MLXEmbeddingModel.tokenize, mlx_inference.py
lines 53-109).  The external tokenizer.encode call is an oracle parameter;
the truncation / padding / mask assembly is the repository's own code. -/

/-- One iteration of the per-sequence loop in tokenize: truncate to
max_length with an all-ones mask, or right-pad with the pad token id
(the tokenizer's eos_token_id) setting the mask to 1 for real tokens and
0 for padding.  Returns (input_ids row, attention_mask row). -/
def padTokenRow (maxLength padId : ℕ) (tokenIds : List ℕ) : List ℕ × List ℕ :=
  if maxLength < tokenIds.length then
    (tokenIds.take maxLength, List.replicate maxLength 1)
  else if 0 < maxLength - tokenIds.length then
    (tokenIds ++ List.replicate (maxLength - tokenIds.length) padId,
     List.replicate tokenIds.length 1
       ++ List.replicate (maxLength - tokenIds.length) 0)
  else
    (tokenIds, List.replicate maxLength 1)

/-- The whole tokenize call: encode every text, then pad/truncate each row.
Returns (input_ids, attention_mask) as two [batch, max_length] arrays. -/
def tokenizeBatch (encode : String → List ℕ) (maxLength padId : ℕ)
    (texts : List String) : List (List ℕ) × List (List ℕ) :=
  let rows := (texts.map encode).map (padTokenRow maxLength padId)
  (rows.map Prod.fst, rows.map Prod.snd)

/-! ### MLX embedding engine (MLXEmbeddingModel.embed) -/

/-- The loaded MLX model: external primitives (tokenizer encode, Qwen3
forward pass, square root) together with the tokenizer constants.  The
Python embed method only reads these fields and never assigns to self. -/
structure MlxModel where
  encode : String → List ℕ
  fwd : List (List ℕ) → List (List ℕ) → List (List (List ℚ))
  sqrtPrim : ℚ → ℚ
  maxLength : ℕ
  padId : ℕ

/-- MLXEmbeddingModel.embed: tokenize, forward, pool by strategy name
(mean / cls, anything else raises ValueError), then optionally L2
normalize.  The raised ValueError is the Except.error case. -/
def mlxEmbed (m : MlxModel) (texts : List String) (pooling : String)
    (normalizeFlag : Bool) : Except String (List (List ℚ)) :=
  let tb := tokenizeBatch m.encode m.maxLength m.padId texts
  let hidden := m.fwd tb.1 tb.2
  if pooling = "mean" then
    let pooled := List.zipWith meanPoolingRow hidden tb.2
    Except.ok (if normalizeFlag then
        pooled.map (fun v => l2normalizeWith (m.sqrtPrim (sumSq v)) v)
      else pooled)
  else if pooling = "cls" then
    let pooled := hidden.map clsPoolingRow
    Except.ok (if normalizeFlag then
        pooled.map (fun v => l2normalizeWith (m.sqrtPrim (sumSq v)) v)
      else pooled)
  else
    Except.error ("Unknown pooling strategy: " ++ pooling)

/-- embed together with the model state it leaves behind: the method body
contains no assignment to self, so the state out is the state in. -/
def mlxEmbedSt (m : MlxModel) (texts : List String) (pooling : String)
    (normalizeFlag : Bool) : Except String (List (List ℚ)) × MlxModel :=
  (mlxEmbed m texts pooling normalizeFlag, m)

/-! ### Model loader / cache manager (model_loader.py) -/

/-- The static model registry keys (MODELS dict in model_loader.py). -/
def MODELS : List String := ["qwen3-0.6b-4bit", "gemma-300m-4bit"]

/-- get_model_path: cache_dir / model_name. -/
def modelPath (name : String) : String := "~/.cache/akidb/models/" ++ name

/-- Contents of one model directory on disk (file names). -/
structure DirState where
  files : List String
deriving DecidableEq

/-- Suffix test on strings, used for the *.safetensors / *.npz globs. -/
def endsW (s pat : String) : Bool := pat.data.reverse.isPrefixOf s.data.reverse

/-- A file name with a recognized weight extension. -/
def weightFile (f : String) : Bool := endsW f ".safetensors" || endsW f ".npz"

/-- is_model_cached on the state of the model's directory (none means the
directory does not exist): requires the directory, config.json inside it,
and at least one recognized weight file.  The Python function body contains
no raise statement, so the embedding is a total Bool function. -/
def is_model_cached (dir : Option DirState) : Bool :=
  match dir with
  | none => false
  | some d => d.files.contains "config.json" && d.files.any weightFile

/-- is_model_cached as called with a model name against a filesystem
(path to directory-state map), in exception-aware form: every control path
of the Python function returns a Bool, none raises, for any name whether or
not it is in the registry. -/
def is_model_cachedFS (fs : String → Option DirState) (name : String) :
    Except String Bool :=
  Except.ok (is_model_cached (fs (modelPath name)))

/-- The TypeError Python raises for cache_dir / None inside get_model_path
when the argument is None (pathlib rejects NoneType operands). -/
def typeErrMsg : String :=
  "TypeError: unsupported operand type for /: PosixPath and NoneType"

/-- is_model_cached as reached through Python dynamic typing with a
possibly-None argument: get_model_path(None) raises TypeError before any
directory check. -/
def is_model_cachedD (fs : String → Option DirState) (name : Option String) :
    Except String Bool :=
  match name with
  | none => Except.error typeErrMsg
  | some s => Except.ok (is_model_cached (fs (modelPath s)))

/-- Outcome of the try block of download_model: either the remote snapshot
fetch plus metadata write completed with the given directory contents, or
some exception was raised after writing the given leftover files. -/
inductive FetchOut where
  | snap (files : List String)
  | failed (leftover : List String)
deriving DecidableEq

/-- Result of a download_model call: the returned path (none when the call
raises), the final state of the model directory, and whether
snapshot_download was invoked. -/
structure DLRes where
  retPath : Option String
  newDir : Option DirState
  fetched : Bool
deriving DecidableEq

/-- download_model (ensure_local): registry lookup (ValueError for unknown
names), fast path returning the cached path without fetching, otherwise
fetch; on fetch failure the model directory is removed (shutil.rmtree)
before the exception is re-raised. -/
def download_model (fs : String → Option DirState) (name : String)
    (force : Bool) (fetch : FetchOut) : DLRes :=
  if (MODELS.contains name) = false then
    { retPath := none, newDir := fs (modelPath name), fetched := false }
  else if force = false ∧ is_model_cached (fs (modelPath name)) = true then
    { retPath := some (modelPath name), newDir := fs (modelPath name),
      fetched := false }
  else
    match fetch with
    | FetchOut.snap files =>
        { retPath := some (modelPath name),
          newDir := some ⟨files ++ ["akidb_metadata.json"]⟩,
          fetched := true }
    | FetchOut.failed _ =>
        { retPath := none, newDir := none, fetched := true }

/-! ### EmbeddingService construction (embedding_service.py __init__) -/

/-- The configuration record resolved by the YAML front end. -/
structure CfgRec where
  model_name : String
  pooling : String
  normalizeFlag : Bool
  auto_download : Bool
deriving DecidableEq

/-- The state EmbeddingService.__init__ establishes when it succeeds. -/
structure SvcState where
  model_name : String
  pooling : String
  normalizeFlag : Bool
  model_path : String
deriving DecidableEq

/-- Converting a download_model result to the caller's view: a propagated
exception or the returned path. -/
def dlToExcept (r : DLRes) : Except String String :=
  match r.retPath with
  | some p => Except.ok p
  | none => Except.error "download raised"

/-- download_model reached with a possibly-None name: get_model_info(None)
raises ValueError (None is not a registry key). -/
def download_modelD (fs : String → Option DirState) (name : Option String)
    (force : Bool) (fetch : FetchOut) : Except String String :=
  match name with
  | none => Except.error "Model None not found"
  | some s => dlToExcept (download_model fs s force fetch)

/-- EmbeddingService.__init__: resolve each argument against the config,
look the resolved name up in the registry, then check the cache and
download — the last two with the RAW model_name argument, exactly as the
source does (is_model_cached(model_name), download_model(model_name)),
not with the resolved self.model_name. -/
def initService (model_name : Option String) (pooling : Option String)
    (normalizeArg : Option Bool) (auto_download : Option Bool)
    (cfg : CfgRec) (fs : String → Option DirState) (fetch : FetchOut) :
    Except String SvcState :=
  let resolved := model_name.getD cfg.model_name
  let poolingR := pooling.getD cfg.pooling
  let normalizeR := normalizeArg.getD cfg.normalizeFlag
  let autoDl := auto_download.getD cfg.auto_download
  if (MODELS.contains resolved) = false then
    Except.error ("Model " ++ resolved ++ " not found")
  else
    match is_model_cachedD fs model_name with
    | Except.error e => Except.error e
    | Except.ok true =>
        match download_modelD fs model_name false fetch with
        | Except.error e => Except.error e
        | Except.ok p =>
            Except.ok { model_name := resolved, pooling := poolingR,
                        normalizeFlag := normalizeR, model_path := p }
    | Except.ok false =>
        if autoDl then
          match download_modelD fs model_name false fetch with
          | Except.error e => Except.error e
          | Except.ok p =>
              Except.ok { model_name := resolved, pooling := poolingR,
                          normalizeFlag := normalizeR, model_path := p }
        else
          Except.error ("Model " ++ resolved ++ " not cached")

/-! ### ONNX server (onnx_server.py) -/

/-- A protocol response: status plus the method-specific fields used by
the claims. -/
structure Response where
  status : String
  message : Option String := none
  dimension : Option ℕ := none
  embeddings : Option (List (List ℚ)) := none
  count : Option ℕ := none
deriving DecidableEq

/-- An error response carrying a message. -/
def errResp (msg : String) : Response :=
  { status := "error", message := some msg }

/-- The server's mutable state: the four dictionaries of
ONNXEmbeddingServer.__init__ (sessions, tokenizers, dimensions,
pytorch_models), keyed by model name. -/
structure SrvState where
  sessions : List String
  tokenizers : List String
  dims : List (String × ℕ)
  pytorch_models : List String
deriving DecidableEq

/-- self.dimensions[name] (latest assignment wins). -/
def lookupDim (st : SrvState) (name : String) : Option ℕ :=
  (st.dims.find? (fun p => p.1 == name)).map Prod.snd

/-- External world for one load_model call: whether the tokenizer loads,
whether the ONNX file exists on disk, whether session / fallback model
construction succeeds, and the dimensions they report. -/
structure LoadEnv where
  tokOk : Bool
  onnxExists : Bool
  sessOk : Bool
  onnxDim : ℕ
  ptOk : Bool
  ptDim : ℕ
deriving DecidableEq

/-- Result of a load_model call: the response, the new server state, and
whether any backend loading work (tokenizer fetch, ONNX session creation,
SentenceTransformer construction) was performed. -/
structure LoadRes where
  resp : Response
  st : SrvState
  backendTouched : Bool
deriving DecidableEq

/-- ONNXEmbeddingServer.load_model: early return only when the name is in
self.sessions; otherwise load the tokenizer, then either the PyTorch
fallback (ONNX file absent) or the ONNX session.  Note the early-return
check does NOT consult pytorch_models. -/
def load_model (env : LoadEnv) (st : SrvState) (name : String) : LoadRes :=
  if st.sessions.contains name then
    { resp := { status := "ok", message := some "Model already loaded",
                dimension := lookupDim st name },
      st := st, backendTouched := false }
  else if env.tokOk = false then
    { resp := errResp ("Failed to load model " ++ name),
      st := st, backendTouched := true }
  else
    let st1 : SrvState := { st with tokenizers := name :: st.tokenizers }
    if env.onnxExists = false then
      if env.ptOk then
        { resp := { status := "ok",
                    message := some "Model loaded with PyTorch fallback",
                    dimension := some env.ptDim },
          st := { st1 with pytorch_models := name :: st1.pytorch_models,
                           dims := (name, env.ptDim) :: st1.dims },
          backendTouched := true }
      else
        { resp := errResp ("Failed to load model " ++ name),
          st := st1, backendTouched := true }
    else
      if env.sessOk then
        { resp := { status := "ok",
                    message := some "Model loaded successfully",
                    dimension := some env.onnxDim },
          st := { st1 with sessions := name :: st1.sessions,
                           dims := (name, env.onnxDim) :: st1.dims },
          backendTouched := true }
      else
        { resp := errResp ("Failed to load model " ++ name),
          st := st1, backendTouched := true }

/-- External world for one embed_batch call: the SentenceTransformer
encode, the HuggingFace tokenizer (whose exceptions are the error case),
the ONNX session run, and the square-root primitive of np.linalg.norm. -/
structure EmbedEnv where
  ptEncode : List String → List (List ℚ)
  tok : List String → Except String (List (List ℕ) × List (List ℕ))
  fwd : List (List ℕ) → List (List ℕ) → List (List (List ℚ))
  sqrtPrim : ℚ → ℚ

/-- Result of an embed_batch call, recording whether the ONNX-path
tokenization step was reached. -/
structure EmbedRes where
  resp : Response
  tokenizeAttempted : Bool

/-- ONNXEmbeddingServer.embed_batch: not-loaded guard, PyTorch fallback
path, else tokenize / run / mean-pool / optionally normalize.  There is no
empty-inputs check anywhere in the function. -/
def embed_batch (env : EmbedEnv) (st : SrvState) (name : String)
    (inputs : List String) (normalizeFlag : Bool) : EmbedRes :=
  if st.sessions.contains name = false ∧ st.pytorch_models.contains name = false then
    { resp := errResp ("Model not loaded: " ++ name), tokenizeAttempted := false }
  else if st.pytorch_models.contains name then
    { resp := { status := "ok", embeddings := some (env.ptEncode inputs),
                count := some inputs.length },
      tokenizeAttempted := false }
  else
    match env.tok inputs with
    | Except.error e =>
        { resp := errResp e, tokenizeAttempted := true }
    | Except.ok tb =>
        let hidden := env.fwd tb.1 tb.2
        let pooled := List.zipWith meanPoolingRow hidden tb.2
        let outs := if normalizeFlag then
            pooled.map (fun v => l2normalizeWith (env.sqrtPrim (sumSq v)) v)
          else pooled
        { resp := { status := "ok", embeddings := some outs,
                    count := some inputs.length },
          tokenizeAttempted := true }

/-- A protocol request (method plus the params fields the server reads). -/
structure Request where
  method : Option String
  model : Option String
  inputs : List String
  normalizeFlag : Bool
  cache_dir : Option String
deriving DecidableEq

/-- Whitespace characters removed by str.strip(). -/
def charWS (c : Char) : Bool := c == ' ' || c == '\t' || c == '\n' || c == '\r'

/-- Python's line.strip(). -/
def pyStrip (s : String) : String :=
  String.mk (((s.data.dropWhile charWS).reverse.dropWhile charWS).reverse)

/-- ONNXEmbeddingServer.run: for each stdin line, strip it, skip it when
empty, parse it (json.loads, an oracle whose error case is
json.JSONDecodeError), process it (an oracle whose error case is any
unhandled exception), and emit exactly one response line; every exception
becomes an error response and the loop continues with the next line. -/
def runServer (parse : String → Except String Request)
    (handle : SrvState → Request → Except String (Response × SrvState)) :
    SrvState → List String → List Response
  | _, [] => []
  | st, l :: ls =>
      if pyStrip l = "" then runServer parse handle st ls
      else
        match parse (pyStrip l) with
        | Except.error e =>
            errResp ("Invalid JSON: " ++ e) :: runServer parse handle st ls
        | Except.ok req =>
            match handle st req with
            | Except.ok rs => rs.1 :: runServer parse handle rs.2 ls
            | Except.error e =>
                errResp ("Internal error: " ++ e) :: runServer parse handle st ls

/-! ### Concrete instances used by the witness theorems -/

/-- The freshly-initialized server state (all dictionaries empty). -/
def emptySrv : SrvState :=
  { sessions := [], tokenizers := [], dims := [], pytorch_models := [] }

/-- A tiny concrete MLX model. -/
def exampleMlx : MlxModel :=
  { encode := fun _ => [1], fwd := fun _ _ => [[[1]]],
    sqrtPrim := fun x => x, maxLength := 2, padId := 0 }

/-- A concrete tokenizer encode: one id per character. -/
def encW : String → List ℕ := fun s => List.replicate s.length 7

/-- Load environment of the PyTorch-fallback scenario: the ONNX file is
absent, everything else succeeds, SentenceTransformer reports 384. -/
def bugEnv : LoadEnv :=
  { tokOk := true, onnxExists := false, sessOk := true, onnxDim := 0,
    ptOk := true, ptDim := 384 }

/-- Load environment where the ONNX file exists and loads at dimension 384. -/
def onnxEnv : LoadEnv :=
  { tokOk := true, onnxExists := true, sessOk := true, onnxDim := 384,
    ptOk := true, ptDim := 384 }

/-- A server state holding one PyTorch-fallback-loaded model "m". -/
def ptSrv : SrvState :=
  { sessions := [], tokenizers := ["m"], dims := [("m", 3)],
    pytorch_models := ["m"] }

/-- A concrete embed environment whose tokenizer raises. -/
def envW : EmbedEnv :=
  { ptEncode := fun _ => [], tok := fun _ => Except.error "tokenizer failure",
    fwd := fun _ _ => [], sqrtPrim := fun x => x }

/-- A concrete ping request. -/
def reqPing : Request :=
  { method := some "ping", model := none, inputs := [], normalizeFlag := true,
    cache_dir := none }

/-- A concrete parser: the line "p" is the ping request, all else invalid. -/
def parseW : String → Except String Request :=
  fun s => if s == "p" then Except.ok reqPing else Except.error "bad"

/-- A request handler that always raises. -/
def handleBoom : SrvState → Request → Except String (Response × SrvState) :=
  fun _ _ => Except.error "boom"

/-- A concrete configuration record naming the default registry model. -/
def cfgW : CfgRec :=
  { model_name := "qwen3-0.6b-4bit", pooling := "mean", normalizeFlag := true,
    auto_download := true }

/-- A filesystem with no model directories. -/
def fsEmpty : String → Option DirState := fun _ => none

/-- A fully-populated model directory. -/
def cachedDir : Option DirState :=
  some ⟨["config.json", "model.safetensors"]⟩

/-! ### Helper lemmas on the vector operations -/

theorem vecScale_zero (h : List ℚ) : vecScale 0 h = List.replicate h.length 0 := by
  induction h with
  | nil => rfl
  | cons x xs ih =>
      simp only [vecScale, List.map_cons, zero_mul, List.length_cons,
        List.replicate_succ]
      simp [vecScale, ih]

theorem vecScale_one (h : List ℚ) : vecScale 1 h = h := by
  simp [vecScale]

theorem vecAdd_replicate_zero (w : List ℚ) :
    vecAdd (List.replicate w.length 0) w = w := by
  induction w with
  | nil => rfl
  | cons x xs ih =>
      simp only [List.length_cons, List.replicate_succ, vecAdd,
        List.zipWith_cons_cons, zero_add]
      exact congrArg (List.cons x) ih

theorem length_vecAdd (a b : List ℚ) :
    (vecAdd a b).length = min a.length b.length := by
  simp [vecAdd]

theorem maskedVecSum_length (dim : ℕ) (hs : List (List ℚ)) (ms : List ℕ)
    (hrows : ∀ h ∈ hs, h.length = dim) :
    (maskedVecSum dim hs ms).length = dim := by
  induction hs generalizing ms with
  | nil => cases ms <;> simp [maskedVecSum]
  | cons h hs ih =>
      cases ms with
      | nil => simp [maskedVecSum]
      | cons m ms =>
          have hh : h.length = dim := hrows h (List.mem_cons_self h hs)
          have ih' := ih ms (fun g hg => hrows g (List.mem_cons_of_mem h hg))
          simp [maskedVecSum, length_vecAdd, vecScale, hh, ih']

theorem maskedVecSum_eq_selected (dim : ℕ) (hs : List (List ℚ)) (ms : List ℕ)
    (hlen : hs.length = ms.length)
    (hrows : ∀ h ∈ hs, h.length = dim)
    (hmask : ∀ m ∈ ms, m ≤ 1) :
    maskedVecSum dim hs ms
      = (selectedVecs hs ms).foldr vecAdd (List.replicate dim 0) := by
  induction hs generalizing ms with
  | nil =>
      cases ms with
      | nil => simp [maskedVecSum, selectedVecs]
      | cons m ms => simp at hlen
  | cons h hs ih =>
      cases ms with
      | nil => simp at hlen
      | cons m ms =>
          have hh : h.length = dim := hrows h (List.mem_cons_self h hs)
          have hlen' : hs.length = ms.length := by simpa using hlen
          have hrows' : ∀ g ∈ hs, g.length = dim :=
            fun g hg => hrows g (List.mem_cons_of_mem h hg)
          have hmask' : ∀ x ∈ ms, x ≤ 1 :=
            fun x hx => hmask x (List.mem_cons_of_mem m hx)
          have hm : m = 0 ∨ m = 1 :=
            Nat.le_one_iff_eq_zero_or_eq_one.mp (hmask m (List.mem_cons_self m ms))
          have ihEq := ih ms hlen' hrows' hmask'
          cases hm with
          | inl h0 =>
              subst h0
              have hlenRest : (maskedVecSum dim hs ms).length = dim :=
                maskedVecSum_length dim hs ms hrows'
              have hz : vecScale ((0 : ℕ) : ℚ) h = List.replicate dim 0 := by
                rw [Nat.cast_zero, vecScale_zero, hh]
              have hrep : vecAdd (List.replicate dim 0) (maskedVecSum dim hs ms)
                  = maskedVecSum dim hs ms := by
                have := vecAdd_replicate_zero (maskedVecSum dim hs ms)
                rwa [hlenRest] at this
              calc maskedVecSum dim (h :: hs) (0 :: ms)
                  = vecAdd (vecScale ((0 : ℕ) : ℚ) h) (maskedVecSum dim hs ms) := rfl
                _ = maskedVecSum dim hs ms := by rw [hz, hrep]
                _ = (selectedVecs hs ms).foldr vecAdd (List.replicate dim 0) := ihEq
                _ = (selectedVecs (h :: hs) (0 :: ms)).foldr vecAdd
                      (List.replicate dim 0) := by
                      simp [selectedVecs]
          | inr h1 =>
              subst h1
              have hone : vecScale ((1 : ℕ) : ℚ) h = h := by
                rw [Nat.cast_one, vecScale_one]
              calc maskedVecSum dim (h :: hs) (1 :: ms)
                  = vecAdd (vecScale ((1 : ℕ) : ℚ) h) (maskedVecSum dim hs ms) := rfl
                _ = vecAdd h ((selectedVecs hs ms).foldr vecAdd
                      (List.replicate dim 0)) := by rw [hone, ihEq]
                _ = (selectedVecs (h :: hs) (1 :: ms)).foldr vecAdd
                      (List.replicate dim 0) := by
                      simp [selectedVecs]

theorem maskSum_eq_countOnes (ms : List ℕ) (h : ∀ m ∈ ms, m ≤ 1) :
    ms.sum = countOnes ms := by
  induction ms with
  | nil => rfl
  | cons m ms ih =>
      have hm : m = 0 ∨ m = 1 :=
        Nat.le_one_iff_eq_zero_or_eq_one.mp (h m (List.mem_cons_self m ms))
      have ih' := ih (fun x hx => h x (List.mem_cons_of_mem m hx))
      cases hm with
      | inl h0 => subst h0; simp [countOnes, List.count_cons, ih']
      | inr h1 =>
          subst h1
          simp [countOnes, List.count_cons, ih']
          omega

theorem selectedVecs_of_all_zero (hs : List (List ℚ)) (ms : List ℕ)
    (h : ∀ m ∈ ms, m = 0) : selectedVecs hs ms = [] := by
  induction hs generalizing ms with
  | nil => simp [selectedVecs]
  | cons x xs ih =>
      cases ms with
      | nil => simp [selectedVecs]
      | cons m ms =>
          have hm : m = 0 := h m (List.mem_cons_self m ms)
          subst hm
          have hrec := ih ms (fun x hx => h x (List.mem_cons_of_mem 0 hx))
          rw [show selectedVecs (x :: xs) (0 :: ms) = selectedVecs xs ms from by
            simp [selectedVecs]]
          exact hrec

theorem sumSq_map_div (v : List ℚ) (c : ℚ) :
    sumSq (v.map (fun x => x / c)) = sumSq v / (c * c) := by
  induction v with
  | nil => simp [sumSq]
  | cons x xs ih =>
      simp only [List.map_cons, sumSq, List.foldr_cons] at *
      rw [ih]
      field_simp

/-! ### Shape lemmas for the tokenizer -/

theorem padTokenRow_shape (maxLength padId : ℕ) (ids : List ℕ) :
    ((padTokenRow maxLength padId ids).1).length = maxLength
    ∧ ((padTokenRow maxLength padId ids).2).length = maxLength := by
  unfold padTokenRow
  by_cases h1 : maxLength < ids.length
  · simp [h1]
    omega
  · by_cases h2 : 0 < maxLength - ids.length
    · simp [h1, h2]
      omega
    · simp [h1, h2]
      omega

theorem padTokenRow_eq_spec (maxLength padId : ℕ) (ids : List ℕ) :
    (maxLength < ids.length →
      padTokenRow maxLength padId ids
        = (ids.take maxLength, List.replicate maxLength 1))
    ∧ (ids.length ≤ maxLength →
      padTokenRow maxLength padId ids
        = (ids ++ List.replicate (maxLength - ids.length) padId,
           List.replicate ids.length 1
             ++ List.replicate (maxLength - ids.length) 0)) := by
  constructor
  · intro h
    simp [padTokenRow, h]
  · intro h
    have h1 : ¬ maxLength < ids.length := not_lt.mpr h
    by_cases h2 : 0 < maxLength - ids.length
    · simp [padTokenRow, h1, h2]
    · have h0 : maxLength - ids.length = 0 := by omega
      have hlen : ids.length = maxLength := by omega
      simp [padTokenRow, h1, h2, h0, hlen]

/-! ### Claim theorems -/

/-- Claim C1: mean pooling computes, for every row of the batch whose
attention mask is 0/1-valued, the sum of the hidden vectors at the
positions where the mask is 1 divided by the count of such positions with
the divisor clamped to a minimum of 1e-9; the clamped divisor is strictly
positive, so no division by zero occurs, and a row whose mask is all zeros
yields the finite zero vector. -/
theorem C1_mean_pooling (dim : ℕ) (hs : List (List ℚ)) (mask : List ℕ)
    (hne : hs ≠ []) (hlen : hs.length = mask.length)
    (hrows : ∀ h ∈ hs, h.length = dim) (hmask : ∀ m ∈ mask, m ≤ 1) :
    meanPoolingRow hs mask = specMeanRow dim hs mask
    ∧ 0 < max ((mask.sum : ℚ)) eps9
    ∧ ((∀ m ∈ mask, m = 0) → meanPoolingRow hs mask = List.replicate dim 0) := by
  have hdim : rowDim hs = dim := by
    cases hs with
    | nil => exact absurd rfl hne
    | cons h t => exact hrows h (List.mem_cons_self h t)
  have hcountN : mask.sum = countOnes mask := maskSum_eq_countOnes mask hmask
  have hcount : ((mask.sum : ℕ) : ℚ) = ((countOnes mask : ℕ) : ℚ) := by
    exact_mod_cast hcountN
  have hmain : meanPoolingRow hs mask = specMeanRow dim hs mask := by
    unfold meanPoolingRow specMeanRow
    rw [hdim, maskedVecSum_eq_selected dim hs mask hlen hrows hmask, hcount]
  refine ⟨hmain, ?_, ?_⟩
  · have h9 : (0 : ℚ) < eps9 := by norm_num [eps9]
    exact lt_of_lt_of_le h9 (le_max_right _ _)
  · intro hz
    rw [hmain]
    unfold specMeanRow
    rw [selectedVecs_of_all_zero hs mask hz]
    simp [List.map_replicate]

/-- Witness for C1 at a concrete batch row: hidden vectors [1,2] and [3,4],
mask [1,0]. -/
theorem C1_mean_pooling_witness :
    meanPoolingRow [[1, 2], [3, 4]] [1, 0] = specMeanRow 2 [[1, 2], [3, 4]] [1, 0]
    ∧ 0 < max ((([1, 0] : List ℕ).sum : ℚ)) eps9 := by
  have h := C1_mean_pooling 2 [[1, 2], [3, 4]] [1, 0] (by decide) (by decide)
    (by decide) (by decide)
  exact ⟨h.1, h.2.1⟩

/-- Claim C2, counterexample to the claim as stated: the zero pooled vector
(which mean pooling produces for an all-masked row) has Euclidean norm 0,
below the 1e-12 clamp; the code returns the zero vector, whose Euclidean
norm 0 differs from 1 by more than the 1e-3 tolerance, refuting the
universally quantified unit-norm postcondition. -/
theorem C2_counterexample :
    l2normalizeWith 0 [(0 : ℚ)] = [0]
    ∧ (0 : ℚ) ≤ 0 ∧ (0 : ℚ) * 0 = sumSq [(0 : ℚ)]
    ∧ (0 : ℚ) * 0 = sumSq (l2normalizeWith 0 [(0 : ℚ)])
    ∧ 1 / 1000 < |(0 : ℚ) - 1| := by
  have habs : |(0 : ℚ) - 1| = 1 := by
    rw [show (0 : ℚ) - 1 = -1 by ring, abs_neg, abs_one]
  refine ⟨?_, le_refl 0, ?_, ?_, ?_⟩
  · norm_num [l2normalizeWith, sumSq, eps12]
  · norm_num [sumSq]
  · norm_num [l2normalizeWith, sumSq, eps12]
  · rw [habs]; norm_num

/-- Claim C2 as amended: when normalization is requested every pooled
vector is divided component-wise by its Euclidean norm clamped to a
minimum of 1e-12, and every output vector whose pooled input has Euclidean
norm at least 1e-12 has L2 norm exactly 1, in particular within the 1e-3
tolerance; when normalization is not requested the vector is returned
un-scaled.  The norm n is the value of the external square root at the sum
of squares, constrained by its defining property. -/
theorem C2_l2_normalize (v : List ℚ) (n : ℚ) (_hn0 : 0 ≤ n)
    (hsq : n * n = sumSq v) (hbig : eps12 ≤ n) :
    sumSq (l2normalizeWith n v) = 1
    ∧ (∀ m : ℚ, 0 ≤ m → m * m = sumSq (l2normalizeWith n v) → |m - 1| ≤ 1 / 1000)
    ∧ applyNorm false n v = v := by
  have heps : (0 : ℚ) < eps12 := by norm_num [eps12]
  have hnpos : (0 : ℚ) < n := lt_of_lt_of_le heps hbig
  have hmax : max n eps12 = n := max_eq_left hbig
  have h1 : sumSq (l2normalizeWith n v) = 1 := by
    unfold l2normalizeWith
    rw [hmax, sumSq_map_div, ← hsq, div_self (by positivity)]
  refine ⟨h1, ?_, rfl⟩
  intro m hm0 hmsq
  rw [h1] at hmsq
  rcases mul_self_eq_one_iff.mp hmsq with h | h
  · subst h
    norm_num
  · subst h
    norm_num at hm0

/-- Witness for the amended C2 at the concrete vector [3,4] with norm 5. -/
theorem C2_l2_normalize_witness :
    sumSq (l2normalizeWith 5 [(3 : ℚ), 4]) = 1
    ∧ applyNorm false 5 [(3 : ℚ), 4] = [3, 4] := by
  have h := C2_l2_normalize [(3 : ℚ), 4] 5 (by norm_num)
    (by norm_num [sumSq]) (by norm_num [eps12])
  exact ⟨h.1, h.2.2⟩

/-- Claim C7: tokenize truncates every over-long encoded sequence to
max_length with an all-ones mask, right-pads every other sequence with the
designated pad token id (the eos id) with mask 1 on real tokens and 0 on
padding, and produces input_ids and attention_mask of the identical shape
[batch, max_length] with the single fixed max_length for every row. -/
theorem C7_tokenize (encode : String → List ℕ) (maxLength padId : ℕ)
    (texts : List String) :
    (tokenizeBatch encode maxLength padId texts).1.length = texts.length
    ∧ (tokenizeBatch encode maxLength padId texts).2.length = texts.length
    ∧ (∀ r ∈ (tokenizeBatch encode maxLength padId texts).1,
        r.length = maxLength)
    ∧ (∀ r ∈ (tokenizeBatch encode maxLength padId texts).2,
        r.length = maxLength)
    ∧ ∀ t ∈ texts,
        (maxLength < (encode t).length →
          padTokenRow maxLength padId (encode t)
            = ((encode t).take maxLength, List.replicate maxLength 1))
        ∧ ((encode t).length ≤ maxLength →
          padTokenRow maxLength padId (encode t)
            = (encode t ++ List.replicate (maxLength - (encode t).length) padId,
               List.replicate (encode t).length 1
                 ++ List.replicate (maxLength - (encode t).length) 0)) := by
  refine ⟨?_, ?_, ?_, ?_, ?_⟩
  · simp [tokenizeBatch]
  · simp [tokenizeBatch]
  · intro r hr
    unfold tokenizeBatch at hr
    simp only [List.map_map, List.mem_map] at hr
    obtain ⟨t, _, rfl⟩ := hr
    exact (padTokenRow_shape maxLength padId (encode t)).1
  · intro r hr
    unfold tokenizeBatch at hr
    simp only [List.map_map, List.mem_map] at hr
    obtain ⟨t, _, rfl⟩ := hr
    exact (padTokenRow_shape maxLength padId (encode t)).2
  · intro t _
    exact padTokenRow_eq_spec maxLength padId (encode t)

/-- Witness for C7 at the concrete text "ab" (two tokens) with
max_length 3 and pad id 9. -/
theorem C7_tokenize_witness :
    padTokenRow 3 9 (encW "ab")
      = (encW "ab" ++ List.replicate (3 - (encW "ab").length) 9,
         List.replicate (encW "ab").length 1
           ++ List.replicate (3 - (encW "ab").length) 0)
    ∧ (tokenizeBatch encW 3 9 ["ab"]).1.length = (["ab"] : List String).length := by
  have h := C7_tokenize encW 3 9 ["ab"]
  exact ⟨(h.2.2.2.2 "ab" (by simp)).2 (by decide), h.1⟩

/-- Claim C3: for every registered model that is_cached reports as cached,
download_model with force false returns the local path immediately with no
fetch and no state change; and whenever the fetch was actually performed
and failed, the model directory is deleted in full, so is_cached is false
on the resulting state. -/
theorem C3_ensure_local (fs : String → Option DirState) (name : String)
    (fetch : FetchOut)
    (hreg : MODELS.contains name = true)
    (hc : is_model_cached (fs (modelPath name)) = true) :
    download_model fs name false fetch
      = { retPath := some (modelPath name), newDir := fs (modelPath name),
          fetched := false }
    ∧ ∀ (fs2 : String → Option DirState) (name2 : String) (force : Bool)
        (leftover : List String),
        (download_model fs2 name2 force (FetchOut.failed leftover)).fetched = true →
        is_model_cached
          (download_model fs2 name2 force (FetchOut.failed leftover)).newDir
          = false := by
  have hmem : name ∈ MODELS := by simpa using hreg
  constructor
  · unfold download_model
    simp [hmem, hc]
  · intro fs2 name2 force leftover hf
    unfold download_model at hf ⊢
    by_cases hm : (MODELS.contains name2) = false
    · rw [if_pos hm] at hf
      simp at hf
    · rw [if_neg hm] at hf ⊢
      by_cases hcc : force = false ∧ is_model_cached (fs2 (modelPath name2)) = true
      · rw [if_pos hcc] at hf
        simp at hf
      · rw [if_neg hcc]
        simp [is_model_cached]

/-- Witness for C3: the registered model name with a fully-populated cached
directory takes the fast path; a failed fetch on an empty filesystem leaves
a state on which is_cached is false. -/
theorem C3_ensure_local_witness :
    download_model (fun _ => cachedDir) "qwen3-0.6b-4bit" false (FetchOut.failed [])
      = { retPath := some (modelPath "qwen3-0.6b-4bit"), newDir := cachedDir,
          fetched := false }
    ∧ is_model_cached
        (download_model fsEmpty "qwen3-0.6b-4bit" true (FetchOut.failed [])).newDir
      = false := by
  have h := C3_ensure_local (fun _ => cachedDir) "qwen3-0.6b-4bit"
    (FetchOut.failed []) (by decide) (by decide)
  exact ⟨h.1, h.2 fsEmpty "qwen3-0.6b-4bit" true [] (by decide)⟩

/-- Claim C6: is_cached returns true if and only if the model's directory
exists, contains config.json, and contains at least one weight file with a
recognized extension (.safetensors or .npz); it returns false for a missing
directory; and it never raises for any name (the function body has no
raising path at all, so in particular it raises only for names absent from
the registry, vacuously). -/
theorem C6_is_cached (fs : String → Option DirState) (name : String) :
    is_model_cachedFS fs name
      = Except.ok (is_model_cached (fs (modelPath name)))
    ∧ (is_model_cached (fs (modelPath name)) = true ↔
        ∃ d, fs (modelPath name) = some d
          ∧ d.files.contains "config.json" = true
          ∧ ∃ f ∈ d.files, weightFile f = true)
    ∧ is_model_cached none = false := by
  refine ⟨rfl, ?_, rfl⟩
  cases hfs : fs (modelPath name) with
  | none => simp [is_model_cached]
  | some d =>
      simp only [is_model_cached, Bool.and_eq_true, List.any_eq_true]
      constructor
      · rintro ⟨hc, f, hf, hw⟩
        exact ⟨d, rfl, hc, f, hf, hw⟩
      · rintro ⟨d2, hd2, hc, f, hf, hw⟩
        cases hd2
        exact ⟨hc, f, hf, hw⟩

/-- Claim C9: an unknown pooling strategy name makes embed raise the
ValueError "Unknown pooling strategy" as a request-level error, the model
state is returned unchanged, and a subsequent request with the valid
strategy "mean" succeeds on the same state. -/
theorem C9_unknown_pooling (m : MlxModel) (texts : List String)
    (normalizeFlag : Bool) (pooling : String)
    (h1 : pooling ≠ "mean") (h2 : pooling ≠ "cls") :
    mlxEmbedSt m texts pooling normalizeFlag
      = (Except.error ("Unknown pooling strategy: " ++ pooling), m)
    ∧ ∀ (texts2 : List String) (n2 : Bool),
        ∃ out, (mlxEmbedSt m texts2 "mean" n2).1 = Except.ok out := by
  constructor
  · unfold mlxEmbedSt mlxEmbed
    simp [h1, h2]
  · intro texts2 n2
    exact ⟨_, rfl⟩

/-- Witness for C9 at a concrete model and the unknown strategy "max". -/
theorem C9_unknown_pooling_witness :
    mlxEmbedSt exampleMlx ["t"] "max" true
      = (Except.error ("Unknown pooling strategy: " ++ "max"), exampleMlx) := by
  exact (C9_unknown_pooling exampleMlx ["t"] true "max" (by decide) (by decide)).1

/-- Claim C4, evaluated at the failing input (closed form): loading a model
through the PyTorch fallback (ONNX file absent) succeeds with dimension
384 and records it in pytorch_models, but a second identical load_model
call — although it also returns ok with dimension 384 — re-invokes the
backend loader, because the early-return check consults only sessions; by
contrast, a model loaded through the ONNX session path is not re-loaded on
the second call. -/
theorem C4_fallback_reload :
    (load_model bugEnv emptySrv "all-MiniLM-L6-v2").resp.status = "ok"
    ∧ (load_model bugEnv emptySrv "all-MiniLM-L6-v2").resp.dimension = some 384
    ∧ (load_model bugEnv emptySrv "all-MiniLM-L6-v2").st.pytorch_models.contains
        "all-MiniLM-L6-v2" = true
    ∧ (load_model bugEnv (load_model bugEnv emptySrv "all-MiniLM-L6-v2").st
        "all-MiniLM-L6-v2").resp.status = "ok"
    ∧ (load_model bugEnv (load_model bugEnv emptySrv "all-MiniLM-L6-v2").st
        "all-MiniLM-L6-v2").resp.dimension = some 384
    ∧ (load_model bugEnv (load_model bugEnv emptySrv "all-MiniLM-L6-v2").st
        "all-MiniLM-L6-v2").backendTouched = true
    ∧ (load_model onnxEnv (load_model onnxEnv emptySrv "all-MiniLM-L6-v2").st
        "all-MiniLM-L6-v2").backendTouched = false
    ∧ (load_model onnxEnv (load_model onnxEnv emptySrv "all-MiniLM-L6-v2").st
        "all-MiniLM-L6-v2").resp.dimension = some 384 := by
  decide

/-- Claim C5, counterexample to the claim as stated: a request with an
empty inputs list on a loaded (PyTorch-fallback) model is not rejected —
embed_batch returns status ok with count 0 and no error message, instead
of an EmptyBatch-class error. -/
theorem C5_counterexample :
    (embed_batch envW ptSrv "m" [] true).resp.status = "ok"
    ∧ (embed_batch envW ptSrv "m" [] true).resp.count = some 0
    ∧ (embed_batch envW ptSrv "m" [] true).resp.message = none
    ∧ (embed_batch envW ptSrv "m" [] true).tokenizeAttempted = false := by
  decide

/-- Claim C5 as amended: embed_batch performs no empty-inputs check.  With
an empty inputs list, a model loaded via the PyTorch fallback returns
status ok with count 0 and the encoder's output; a model loaded as an ONNX
session proceeds to attempt tokenization, and a tokenizer exception
becomes the generic error response carrying the exception's message, not
an EmptyBatch-class error. -/
theorem C5_empty_inputs (env : EmbedEnv) (st : SrvState) (name : String) :
    (st.pytorch_models.contains name = true →
      (embed_batch env st name [] true).resp.status = "ok"
      ∧ (embed_batch env st name [] true).resp.count = some 0
      ∧ (embed_batch env st name [] true).resp.embeddings
          = some (env.ptEncode []))
    ∧ (st.sessions.contains name = true →
        st.pytorch_models.contains name = false →
      (embed_batch env st name [] true).tokenizeAttempted = true
      ∧ ∀ e, env.tok [] = Except.error e →
          (embed_batch env st name [] true).resp = errResp e) := by
  constructor
  · intro hpt
    have hpm : name ∈ st.pytorch_models := by simpa using hpt
    unfold embed_batch
    simp [hpm]
  · intro hs hpt
    have hsm : name ∈ st.sessions := by simpa using hs
    have hpm : name ∉ st.pytorch_models := by simpa using hpt
    unfold embed_batch
    simp only [hsm, hpm]
    cases htok : env.tok [] with
    | error e => simp [hsm, hpm, htok]
    | ok tb => simp [hsm, hpm, htok]

/-- Witness for the amended C5 at a concrete PyTorch-loaded model. -/
theorem C5_empty_inputs_witness :
    (embed_batch envW ptSrv "m" [] true).resp.status = "ok"
    ∧ (embed_batch envW ptSrv "m" [] true).resp.count = some 0 := by
  have h := (C5_empty_inputs envW ptSrv "m").1 (by decide)
  exact ⟨h.1, h.2.1⟩

/-- Claim C8: the server loop answers every nonempty input line with
exactly one response and never terminates on a per-request failure: a line
that fails JSON parsing yields exactly one Invalid JSON error response and
the loop continues with the remaining lines, and an exception raised while
processing a request is caught and converted into an Internal error
response, again with the loop continuing. -/
theorem C8_server_loop (parse : String → Except String Request)
    (handle : SrvState → Request → Except String (Response × SrvState)) :
    (∀ (st : SrvState) (lines : List String),
      (runServer parse handle st lines).length
        = lines.countP (fun l => !(pyStrip l == "")))
    ∧ (∀ (st : SrvState) (l : String) (ls : List String) (e : String),
        pyStrip l ≠ "" → parse (pyStrip l) = Except.error e →
        runServer parse handle st (l :: ls)
          = errResp ("Invalid JSON: " ++ e) :: runServer parse handle st ls)
    ∧ (∀ (st : SrvState) (l : String) (ls : List String) (req : Request)
        (e : String),
        pyStrip l ≠ "" → parse (pyStrip l) = Except.ok req →
        handle st req = Except.error e →
        runServer parse handle st (l :: ls)
          = errResp ("Internal error: " ++ e) :: runServer parse handle st ls) := by
  refine ⟨?_, ?_, ?_⟩
  · intro st lines
    induction lines generalizing st with
    | nil => simp [runServer]
    | cons l ls ih =>
        by_cases hl : pyStrip l = ""
        · simp [runServer, hl, List.countP_cons, ih st]
        · cases hp : parse (pyStrip l) with
          | error e =>
              simp [runServer, hl, hp, List.countP_cons, ih st]
          | ok req =>
              cases hh : handle st req with
              | error e =>
                  simp [runServer, hl, hp, hh, List.countP_cons, ih st]
              | ok rs =>
                  simp [runServer, hl, hp, hh, List.countP_cons, ih rs.2]
  · intro st l ls e hl hp
    simp [runServer, hl, hp]
  · intro st l ls req e hl hp hh
    simp [runServer, hl, hp, hh]

/-- Witness for C8: the line "p" parses to the ping request, the handler
raises, and the loop answers with exactly the Internal error response. -/
theorem C8_server_loop_witness :
    runServer parseW handleBoom emptySrv ["p"]
      = [errResp ("Internal error: " ++ "boom")] := by
  have h := (C8_server_loop parseW handleBoom).2.2 emptySrv "p" [] reqPing "boom"
    (by decide) (by rfl) (by rfl)
  simpa [runServer] using h

/-- Claim C10: constructing EmbeddingService with the model_name argument
omitted (None) raises even when the configuration record supplies a valid
registered model name, because the cache check (and download) receive the
raw None argument — get_model_path(None) raises TypeError — instead of the
resolved self.model_name. -/
theorem C10_none_model_name (poolingArg : Option String)
    (normalizeArg : Option Bool) (autoArg : Option Bool) (cfg : CfgRec)
    (fs : String → Option DirState) (fetch : FetchOut)
    (hreg : MODELS.contains cfg.model_name = true) :
    initService none poolingArg normalizeArg autoArg cfg fs fetch
      = Except.error typeErrMsg := by
  have hmem : cfg.model_name ∈ MODELS := by simpa using hreg
  unfold initService
  simp [hmem, is_model_cachedD]

/-- Witness for C10 with the default configuration record naming the
registered model qwen3-0.6b-4bit. -/
theorem C10_none_model_name_witness :
    initService none none none none cfgW fsEmpty (FetchOut.failed [])
      = Except.error typeErrMsg := by
  exact C10_none_model_name none none none cfgW fsEmpty (FetchOut.failed [])
    (by decide)
